import Mathlib

/-!
Verification of the AI-Book-Weaver orchestration and export logic.

The development shallowly embeds the deterministic parts of the application:
the fan-out/fan-in content-generation pipeline of handleGenerateBook, the
book assembly step, the cover and title-suggestion handlers, and the
document-children construction of createAndDownloadDocx.  External service
calls are modelled by their settled outcomes, supplied through a RunEnv
record; the completion order of the concurrently issued content-expansion
calls is modelled by an explicit settlement schedule, since independence
from that order is one of the properties under scrutiny.
-/

namespace BookWeaver

/-! ### Text primitives

JavaScript string operations used by the source.  The Lean standard
String.trim and String.splitOn are implemented by well-founded recursion
over byte positions and do not reduce inside the kernel, so the same
operations are defined here structurally over the character list of the
string.  jsTrim models String.prototype.trim (strip whitespace from both
ends); jsSplitNewline models split with separator newline, which always
returns at least one piece and keeps empty pieces.
-/

def trimChars (cs : List Char) : List Char :=
  ((cs.dropWhile Char.isWhitespace).reverse.dropWhile Char.isWhitespace).reverse

def jsTrim (s : String) : String :=
  String.mk (trimChars s.data)

def splitLinesChars : List Char → List (List Char)
  | [] => [[]]
  | c :: cs =>
    match splitLinesChars cs with
    | [] => if c = '\n' then [[], []] else [[c]]
    | l :: ls => if c = '\n' then [] :: l :: ls else (c :: l) :: ls

def jsSplitNewline (s : String) : List String :=
  (splitLinesChars s.data).map String.mk

/-! ### Data model (src/types.ts)

Optional string fields of the TypeScript interfaces have type
string-or-undefined; they are modelled as Option String. -/

structure Chapter where
  title : String
  content : String
deriving DecidableEq

structure Book where
  title : String
  subtitle : Option String
  authorName : String
  copyright : String
  dedication : Option String
  acknowledgements : Option String
  authorBio : Option String
  synopsis : String
  introduction : Chapter
  chapters : List Chapter
  conclusion : Chapter
deriving DecidableEq

structure BookOutline where
  synopsis : String
  introductionTitle : String
  chapterTitles : List String
  conclusionTitle : String
deriving DecidableEq

/-- JavaScript truthiness of a string-or-undefined value: undefined and the
empty string are falsy, every other string is truthy. -/
def truthy : Option String → Bool
  | none => false
  | some s => !(s == "")

/-! ### Export model (src/services/docxService.ts, createAndDownloadDocx)

The docx library receives a flat children array.  Each produced child is
modelled by one DocNode: a front-matter paragraph with a named style, a
centered plain paragraph, a HEADING_1 paragraph, a normalPara body
paragraph, or a page break. -/

inductive DocNode where
  | styled (style : String) (text : String)
  | centered (text : String)
  | heading1 (text : String)
  | body (text : String)
  | pageBreak
deriving DecidableEq

/-- Prose of one section, as emitted by the export: split on newline,
drop the pieces that are empty after trimming, and wrap each remaining
piece in a normalPara paragraph. -/
def splitParas (text : String) : List DocNode :=
  ((jsSplitNewline text).filter (fun p => jsTrim p != "")).map DocNode.body

/-- The children array built by createAndDownloadDocx, in source order:
cover page, copyright page, optional dedication, synopsis, introduction,
chapters, conclusion, optional acknowledgements, optional author bio,
final page. -/
def docxChildren (book : Book) : List DocNode :=
  [DocNode.styled "titleStyle" book.title]
  ++ (if truthy book.subtitle then [DocNode.styled "subtitle" (book.subtitle.getD "")] else [])
  ++ [DocNode.styled "author" book.authorName, DocNode.pageBreak]
  ++ [DocNode.centered book.copyright, DocNode.pageBreak]
  ++ (if truthy book.dedication then
        [DocNode.centered (book.dedication.getD ""), DocNode.pageBreak] else [])
  ++ [DocNode.heading1 "Synopsis"] ++ splitParas book.synopsis ++ [DocNode.pageBreak]
  ++ [DocNode.heading1 book.introduction.title] ++ splitParas book.introduction.content
  ++ (book.chapters.flatMap (fun chapter =>
        [DocNode.pageBreak, DocNode.heading1 chapter.title] ++ splitParas chapter.content))
  ++ [DocNode.pageBreak, DocNode.heading1 book.conclusion.title]
  ++ splitParas book.conclusion.content
  ++ (if truthy book.acknowledgements then
        [DocNode.pageBreak, DocNode.heading1 "Acknowledgements"]
        ++ splitParas (book.acknowledgements.getD "") else [])
  ++ (if truthy book.authorBio then
        [DocNode.pageBreak, DocNode.heading1 "About the Author"]
        ++ splitParas (book.authorBio.getD "") else [])
  ++ [DocNode.pageBreak, DocNode.centered "Thank you for reading."]

/-! ### Promise.all model

The N+2 content-expansion promises are awaited with Promise.all.  Its
semantics: the combined promise rejects with the reason of the first
rejection in settlement order, and fulfills with the results listed in
input order once every input promise has fulfilled.  A settlement
schedule is a list of input indices in the order the promises settle;
promiseAll returns none when the schedule leaves some input unsettled
(the combined promise is still pending). -/

def settleStep (tasks : List (Except String α)) (acc : Except String (List (Option α)))
    (j : Nat) : Except String (List (Option α)) :=
  match acc, tasks[j]? with
  | Except.error e, _ => Except.error e
  | Except.ok buf, some (Except.ok c) => Except.ok (buf.set j (some c))
  | Except.ok _, some (Except.error e) => Except.error e
  | Except.ok buf, none => Except.ok buf

def promiseAll (tasks : List (Except String α)) (order : List Nat) :
    Option (Except String (List α)) :=
  match order.foldl (settleStep tasks) (Except.ok (List.replicate tasks.length none)) with
  | Except.error e => some (Except.error e)
  | Except.ok buf =>
    if buf.all Option.isSome then some (Except.ok buf.reduceOption) else none

/-- Filling step of the buffer when every task fulfills. -/
def fillStep (cs : List α) (buf : List (Option α)) (j : Nat) : List (Option α) :=
  match cs[j]? with
  | some c => buf.set j (some c)
  | none => buf

/-! ### Content expansion (src/services/geminiService.ts, generateChapterContent)

The underlying model call either yields prose (some text) or fails (none).
On failure generateChapterContent throws an error whose message names the
chapter being generated. -/

def chapterFailureMessage (chapterTitle : String) : String :=
  "Failed to generate content for chapter: \"" ++ chapterTitle ++ "\"."

def generateChapterContent (apiResult : Option String) (chapterTitle : String) :
    Except String String :=
  match apiResult with
  | some text => Except.ok text
  | none => Except.error (chapterFailureMessage chapterTitle)

/-- The titles of the N+2 expanded sections, in the order the promises are
placed into the contentPromises array: introduction, the outline chapters,
conclusion. -/
def sectionTitles (outline : BookOutline) : List String :=
  outline.introductionTitle :: (outline.chapterTitles ++ [outline.conclusionTitle])

/-- The contentPromises array of handleGenerateBook: one task per section,
each pairing the section title with the expanded content.  The underlying
call outcomes are indexed by position in the array. -/
def contentTasks (outline : BookOutline) (api : Nat → Option String) :
    List (Except String Chapter) :=
  Except.map (fun content => Chapter.mk outline.introductionTitle content)
      (generateChapterContent (api 0) outline.introductionTitle)
  :: ((outline.chapterTitles.mapIdx fun i chapterTitle =>
        Except.map (fun content => Chapter.mk chapterTitle content)
          (generateChapterContent (api (i + 1)) chapterTitle))
  ++ [Except.map (fun content => Chapter.mk outline.conclusionTitle content)
        (generateChapterContent (api (outline.chapterTitles.length + 1))
          outline.conclusionTitle)])

/-- The allContent value of a fully successful run: each section title
paired with the content produced by its call. -/
def contentChapters (outline : BookOutline) (contents : Nat → String) : List Chapter :=
  Chapter.mk outline.introductionTitle (contents 0)
  :: ((outline.chapterTitles.mapIdx fun i chapterTitle =>
        Chapter.mk chapterTitle (contents (i + 1)))
  ++ [Chapter.mk outline.conclusionTitle (contents (outline.chapterTitles.length + 1))])

/-! ### Application state and handlers (src/unnamed/part_000, the App component)

The React state variables relevant to the verified claims are collected in
AppState.  The settled outcomes of the external calls made during one run
are collected in RunEnv: the author-bio call, the outline call, the
underlying content call per section index, the settlement schedule of the
content calls, the current year used for the copyright line, and the
translated validation message returned by t applied to the formError key
(the translations table is UI plumbing outside the embedded core, so the
message is carried as an opaque string). -/

inductive AuthorBioOption where
  | manual
  | auto
deriving DecidableEq

structure AppState where
  title : String
  subtitle : String
  authorName : String
  category : String
  genre : String
  wordCount : String
  tone : String
  targetAudience : String
  language : String
  dedication : String
  acknowledgements : String
  authorBioOption : AuthorBioOption
  authorBio : String
  isLoading : Bool
  loadingMessage : String
  generatedBook : Option Book
  error : Option String
  isSuggesting : Bool
  suggestedTitles : List String
  coverImage : Option String
  isCoverLoading : Bool
  coverFeedback : String
deriving DecidableEq

structure RunEnv where
  tFormError : String
  bioResult : Except String String
  outlineResult : Except String BookOutline
  contentApi : Nat → Option String
  order : List Nat
  year : Nat

/-- One external service call issued by the generation handler. -/
inductive ExtCall where
  | bio
  | outline
  | content (i : Nat)
deriving DecidableEq

/-- The Book record built at the end of a successful run (assembly step of
handleGenerateBook).  The non-bio text fields are read from the form state;
the bio is the finalAuthorBio local value. -/
def assembleBook (title subtitle authorName dedication acknowledgements : String)
    (finalAuthorBio : String) (year : Nat) (outline : BookOutline)
    (allContent : List Chapter) : Book :=
  { title := title
    subtitle := some subtitle
    authorName := authorName
    copyright := "Copyright © " ++ toString year ++ " " ++ authorName ++ ". All rights reserved."
    dedication := some dedication
    acknowledgements := some acknowledgements
    authorBio := some finalAuthorBio
    synopsis := outline.synopsis
    introduction := allContent.getD 0 (Chapter.mk "" "")
    chapters := (allContent.drop 1).dropLast
    conclusion := allContent.getD (allContent.length - 1) (Chapter.mk "" "") }

/-- Continuation of handleGenerateBook from the outline call on.  base is
the state after the initial resets with the finally block already applied
(loading flag cleared, loading message cleared); calls are the external
calls issued so far. -/
def generateFromOutline (base : AppState) (finalAuthorBio : String) (env : RunEnv)
    (calls : List ExtCall) : AppState × List ExtCall :=
  match env.outlineResult with
  | Except.error msg =>
    ({ base with error := some ("An error occurred: " ++ msg) }, calls ++ [ExtCall.outline])
  | Except.ok outline =>
    let tasks := contentTasks outline env.contentApi
    let calls := calls ++ [ExtCall.outline] ++ (List.range tasks.length).map ExtCall.content
    match promiseAll tasks env.order with
    | none =>
      ({ base with
          isLoading := true
          loadingMessage := "Step 3/4: Generating content for "
            ++ toString (outline.chapterTitles.length + 2)
            ++ " sections... (this may take a few minutes)" }, calls)
    | some (Except.error msg) =>
      ({ base with error := some ("An error occurred: " ++ msg) }, calls)
    | some (Except.ok allContent) =>
      ({ base with
          generatedBook := some (assembleBook base.title base.subtitle base.authorName
            base.dedication base.acknowledgements finalAuthorBio env.year outline allContent) },
        calls)

/-- The generation handler.  Returns the state after the run together with
the list of external calls issued.  The early validation return happens
before the try block, so it touches only the error message; on every other
path the finally block has reset the loading flag and message, and the
run-start resets have cleared the previous book, cover, error and title
suggestions. -/
def handleGenerateBook (s : AppState) (env : RunEnv) : AppState × List ExtCall :=
  if jsTrim s.title == "" || jsTrim s.authorName == "" then
    ({ s with error := some env.tFormError }, [])
  else
    let base : AppState :=
      { s with
          isLoading := false
          loadingMessage := ""
          generatedBook := none
          coverImage := none
          error := none
          suggestedTitles := [] }
    match s.authorBioOption with
    | AuthorBioOption.auto =>
      match env.bioResult with
      | Except.error msg =>
        ({ base with error := some ("An error occurred: " ++ msg) }, [ExtCall.bio])
      | Except.ok bio =>
        generateFromOutline { base with authorBio := bio } bio env [ExtCall.bio]
    | AuthorBioOption.manual =>
      generateFromOutline base s.authorBio env []

/-- The cover handler, given the settled outcome of the cover call.  With no
generated book it returns immediately; otherwise a fulfilled call installs
the new image and clears the feedback box, and a rejected call records a
cover-specific error.  In both settled cases the finally block has cleared
the cover loading flag. -/
def handleGenerateCover (s : AppState) (coverResult : Except String String) : AppState :=
  match s.generatedBook with
  | none => s
  | some _ =>
    match coverResult with
    | Except.ok imageBase64 =>
      { s with
          isCoverLoading := false
          error := none
          coverImage := some ("data:image/jpeg;base64," ++ imageBase64)
          coverFeedback := "" }
    | Except.error msg =>
      { s with
          isCoverLoading := false
          error := some ("Failed to generate cover: " ++ msg) }

/-- The title-suggestion handler, given the settled outcome of the
suggestion call. -/
def handleSuggestTitles (s : AppState) (result : Except String (List String)) : AppState :=
  if jsTrim s.title == "" then
    { s with error := some "Please enter a title to get suggestions." }
  else
    match result with
    | Except.ok titles =>
      { s with isSuggesting := false, suggestedTitles := titles, error := none }
    | Except.error msg =>
      { s with
          isSuggesting := false
          suggestedTitles := []
          error := some ("Could not generate suggestions: " ++ msg) }

/-- Click handler of one suggestion button: the only place the working
title is replaced by a suggestion. -/
def selectSuggestedTitle (s : AppState) (suggestion : String) : AppState :=
  { s with title := suggestion, suggestedTitles := [] }

/-- Disabled predicate of the Generate Book button: plain JavaScript
truthiness of the raw field values, with no trimming. -/
def generateButtonDisabled (s : AppState) : Bool :=
  s.isLoading || s.isSuggesting || s.title == "" || s.authorName == ""

/-! ### Concrete runs -/

def exampleOutline : BookOutline :=
  { synopsis := "A synopsis."
    introductionTitle := "Introduction"
    chapterTitles := ["The First Step", "The Second Step"]
    conclusionTitle := "Conclusion" }

def exampleState : AppState :=
  { title := "My Book"
    subtitle := "A Journey"
    authorName := "Alex Writer"
    category := "Self-Help"
    genre := "non-fiction"
    wordCount := "15,000 - 20,000 words"
    tone := "Motivational"
    targetAudience := "Entrepreneurs"
    language := "English"
    dedication := ""
    acknowledgements := ""
    authorBioOption := AuthorBioOption.manual
    authorBio := ""
    isLoading := false
    loadingMessage := ""
    generatedBook := none
    error := none
    isSuggesting := false
    suggestedTitles := []
    coverImage := none
    isCoverLoading := false
    coverFeedback := "" }

def exampleContents : Nat → String :=
  fun i => "Prose for section " ++ toString i ++ "."

def exampleEnv : RunEnv :=
  { tFormError := "Please fill in the book title and author name."
    bioResult := Except.ok "A short bio."
    outlineResult := Except.ok exampleOutline
    contentApi := fun i => some (exampleContents i)
    order := [2, 0, 3, 1]
    year := 2024 }

def exampleEnvFail : RunEnv :=
  { exampleEnv with contentApi := fun i => if i = 2 then none else some (exampleContents i) }

def exampleBook : Book :=
  { title := "My Book"
    subtitle := some "A Journey"
    authorName := "Alex Writer"
    copyright := "Copyright © 2024 Alex Writer. All rights reserved."
    dedication := some ""
    acknowledgements := some "Thanks to everyone."
    authorBio := some ""
    synopsis := "First line.\n\nSecond line."
    introduction := Chapter.mk "Introduction" "Intro prose."
    chapters := [Chapter.mk "The First Step" "Step one.\n \nStep two."]
    conclusion := Chapter.mk "Conclusion" "Final prose." }

def exampleStateNoTitle : AppState :=
  { exampleState with title := "" }

def exampleStateSpaces : AppState :=
  { exampleState with title := "   " }

def exampleStateWithBook : AppState :=
  { exampleState with
      generatedBook := some exampleBook
      coverImage := some "data:image/jpeg;base64,AAAA"
      coverFeedback := "Use a blue background." }

theorem foldl_settleStep_error (tasks : List (Except String α)) (order : List Nat)
    (e : String) : order.foldl (settleStep tasks) (Except.error e) = Except.error e := by
  induction order with
  | nil => rfl
  | cons i rest ih => simpa [settleStep] using ih

theorem foldl_settleStep_ok (cs : List α) (order : List Nat) :
    ∀ buf : List (Option α),
      order.foldl (settleStep (cs.map Except.ok)) (Except.ok buf)
        = Except.ok (order.foldl (fillStep cs) buf) := by
  induction order with
  | nil => intro buf; rfl
  | cons i rest ih =>
    intro buf
    have hstep : settleStep (cs.map Except.ok) (Except.ok buf) i = Except.ok (fillStep cs buf i) := by
      simp only [settleStep, fillStep, List.getElem?_map]
      cases cs[i]? <;> rfl
    simp only [List.foldl_cons, hstep, ih]

theorem length_foldl_fillStep (cs : List α) (order : List Nat) :
    ∀ buf : List (Option α), (order.foldl (fillStep cs) buf).length = buf.length := by
  induction order with
  | nil => intro buf; rfl
  | cons i rest ih =>
    intro buf
    rw [List.foldl_cons, ih]
    simp only [fillStep]
    cases cs[i]? <;> simp

theorem foldl_fillStep_not_mem (cs : List α) (order : List Nat) (j : Nat)
    (hj : j ∉ order) :
    ∀ buf : List (Option α), (order.foldl (fillStep cs) buf)[j]? = buf[j]? := by
  induction order with
  | nil => intro buf; rfl
  | cons i rest ih =>
    intro buf
    have hji : j ≠ i := fun h => hj (h ▸ List.mem_cons_self i rest)
    have hjr : j ∉ rest := fun h => hj (List.mem_cons_of_mem i h)
    rw [List.foldl_cons, ih hjr]
    simp only [fillStep]
    cases cs[i]? with
    | none => rfl
    | some c => exact List.getElem?_set_ne hji.symm

theorem foldl_fillStep_mem (cs : List α) (order : List Nat) (j : Nat) (c : α)
    (hj : j ∈ order) (hc : cs[j]? = some c) :
    ∀ buf : List (Option α), j < buf.length →
      (order.foldl (fillStep cs) buf)[j]? = some (some c) := by
  induction order with
  | nil => cases hj
  | cons i rest ih =>
    intro buf hlen
    rw [List.foldl_cons]
    by_cases hjr : j ∈ rest
    · refine ih hjr _ ?_
      simp only [fillStep]
      cases cs[i]? <;> simp [hlen]
    · have hji : j = i := by
        rcases List.mem_cons.mp hj with h | h
        · exact h
        · exact absurd h hjr
      subst hji
      rw [foldl_fillStep_not_mem cs rest j hjr]
      simp only [fillStep, hc]
      exact List.getElem?_set_self hlen

theorem foldl_fillStep_perm (cs : List α) (order : List Nat)
    (hperm : order.Perm (List.range cs.length)) :
    order.foldl (fillStep cs) (List.replicate cs.length none) = cs.map some := by
  apply List.ext_getElem?
  intro j
  by_cases hj : j < cs.length
  · have hmem : j ∈ order := hperm.mem_iff.mpr (List.mem_range.mpr hj)
    have hc : cs[j]? = some cs[j] := List.getElem?_eq_getElem hj
    rw [foldl_fillStep_mem cs order j cs[j] hmem hc _ (by simpa using hj)]
    simp [hj]
  · have h1 : (order.foldl (fillStep cs) (List.replicate cs.length none)).length ≤ j := by
      rw [length_foldl_fillStep]
      simpa using Nat.le_of_not_lt hj
    rw [List.getElem?_eq_none h1, List.getElem?_eq_none (by simpa using Nat.le_of_not_lt hj)]

theorem reduceOption_map_some (cs : List α) : (cs.map some).reduceOption = cs := by
  induction cs with
  | nil => rfl
  | cons c rest ih => simp [List.reduceOption_cons_of_some, ih]

/-- Promise.all fulfills with the results in input order whenever every
input fulfills, no matter in which order the inputs settle. -/
theorem promiseAll_ok (cs : List α) (order : List Nat)
    (hperm : order.Perm (List.range cs.length)) :
    promiseAll (cs.map Except.ok) order = some (Except.ok cs) := by
  unfold promiseAll
  rw [show (cs.map Except.ok).length = cs.length from List.length_map cs Except.ok,
    foldl_settleStep_ok, foldl_fillStep_perm cs order hperm]
  simp [reduceOption_map_some]

/-- If the fold ends in a rejection, some settled task carries exactly that
rejection reason. -/
theorem foldl_settleStep_error_source (tasks : List (Except String α)) (order : List Nat)
    (e : String) :
    ∀ buf : List (Option α),
      order.foldl (settleStep tasks) (Except.ok buf) = Except.error e →
      ∃ j ∈ order, tasks[j]? = some (Except.error e) := by
  induction order with
  | nil => intro buf h; cases h
  | cons i rest ih =>
    intro buf h
    rw [List.foldl_cons] at h
    rcases htask : tasks[i]? with _ | te
    · rcases ih buf (by simpa [settleStep, htask] using h) with ⟨j, hj, hje⟩
      exact ⟨j, List.mem_cons_of_mem i hj, hje⟩
    · cases te with
      | ok c =>
        rcases ih (buf.set i (some c)) (by simpa [settleStep, htask] using h) with ⟨j, hj, hje⟩
        exact ⟨j, List.mem_cons_of_mem i hj, hje⟩
      | error e0 =>
        have : settleStep tasks (Except.ok buf) i = Except.error e0 := by
          simp [settleStep, htask]
        rw [this, foldl_settleStep_error] at h
        cases h
        exact ⟨i, List.mem_cons_self i rest, htask⟩

/-- If some settled task rejects, the fold ends in a rejection. -/
theorem foldl_settleStep_of_error (tasks : List (Except String α)) (order : List Nat)
    (j : Nat) (e0 : String) (hj : j ∈ order) (htask : tasks[j]? = some (Except.error e0)) :
    ∀ buf : List (Option α),
      ∃ e, order.foldl (settleStep tasks) (Except.ok buf) = Except.error e := by
  induction order with
  | nil => cases hj
  | cons i rest ih =>
    intro buf
    rw [List.foldl_cons]
    rcases hstep : settleStep tasks (Except.ok buf) i with e1 | buf1
    · exact ⟨e1, by rw [foldl_settleStep_error]⟩
    · have hji : j ≠ i := by
        intro h
        subst h
        simp [settleStep, htask] at hstep
      have hjr : j ∈ rest := by
        rcases List.mem_cons.mp hj with h | h
        · exact absurd h hji
        · exact h
      exact ih hjr buf1

/-- A settled rejection makes Promise.all reject, and the surfaced reason
is the reason of one of the rejected tasks. -/
theorem promiseAll_error (tasks : List (Except String α)) (order : List Nat)
    (j : Nat) (e0 : String) (hj : j ∈ order) (htask : tasks[j]? = some (Except.error e0)) :
    ∃ e, promiseAll tasks order = some (Except.error e) ∧
      ∃ k ∈ order, tasks[k]? = some (Except.error e) := by
  rcases foldl_settleStep_of_error tasks order j e0 hj htask
      (List.replicate tasks.length none) with ⟨e, he⟩
  refine ⟨e, ?_, foldl_settleStep_error_source tasks order e _ he⟩
  unfold promiseAll
  rw [he]

theorem map_mapIdx (l : List α) (f : Nat → α → β) (g : β → γ) :
    (l.mapIdx f).map g = l.mapIdx fun i a => g (f i a) := by
  induction l generalizing f with
  | nil => rfl
  | cons a rest ih => simp [List.mapIdx_cons, ih]

theorem contentTasks_all_ok (outline : BookOutline) (contents : Nat → String) :
    contentTasks outline (fun i => some (contents i))
      = (contentChapters outline contents).map Except.ok := by
  unfold contentTasks contentChapters generateChapterContent
  simp [map_mapIdx, Except.map]

theorem length_contentTasks (outline : BookOutline) (api : Nat → Option String) :
    (contentTasks outline api).length = outline.chapterTitles.length + 2 := by
  simp [contentTasks]

theorem length_contentChapters (outline : BookOutline) (contents : Nat → String) :
    (contentChapters outline contents).length = outline.chapterTitles.length + 2 := by
  simp [contentChapters]

theorem length_sectionTitles (outline : BookOutline) :
    (sectionTitles outline).length = outline.chapterTitles.length + 2 := by
  simp [sectionTitles]

theorem getElem?_mapIdx (l : List α) (f : Nat → α → β) :
    ∀ j, (l.mapIdx f)[j]? = l[j]?.map (f j) := by
  induction l generalizing f with
  | nil => intro j; simp
  | cons a rest ih =>
    intro j
    rw [List.mapIdx_cons]
    cases j with
    | zero => simp
    | succ j => simpa using ih (fun i => f (i + 1)) j

/-- Positionwise description of the contentPromises array: task j carries
section title j and the outcome of call j. -/
theorem contentTasks_getElem? (outline : BookOutline) (api : Nat → Option String) (j : Nat) :
    (contentTasks outline api)[j]?
      = ((sectionTitles outline)[j]?).map fun t =>
          Except.map (fun content => Chapter.mk t content) (generateChapterContent (api j) t) := by
  unfold contentTasks sectionTitles
  cases j with
  | zero => simp
  | succ j =>
    simp only [List.getElem?_cons_succ]
    by_cases hj : j < outline.chapterTitles.length
    · rw [List.getElem?_append_left (by simpa using hj),
        List.getElem?_append_left hj, getElem?_mapIdx]
    · have hlen : outline.chapterTitles.length ≤ j := Nat.le_of_not_lt hj
      rcases Nat.lt_or_ge j (outline.chapterTitles.length + 1) with hlt | hge
      · have hjeq : j = outline.chapterTitles.length := Nat.le_antisymm (Nat.lt_succ_iff.mp hlt) hlen
        subst hjeq
        rw [List.getElem?_append_right (by simpa using Nat.le_refl _),
          List.getElem?_append_right (by simpa using Nat.le_refl _)]
        simp
      · have h1 : (outline.chapterTitles.mapIdx fun i chapterTitle =>
            Except.map (fun content => Chapter.mk chapterTitle content)
              (generateChapterContent (api (i + 1)) chapterTitle)).length ≤ j := by
          simpa using hlen
        rw [List.getElem?_append_right h1,
          List.getElem?_append_right (by simpa using hlen)]
        have h2 : 1 ≤ j - outline.chapterTitles.length := by omega
        simp only [List.length_mapIdx]
        rw [List.getElem?_eq_none (by simpa using h2), List.getElem?_eq_none (by simpa using h2)]
        rfl

/-! ### Run characterizations -/

theorem mapIdx_id (l : List α) : (l.mapIdx fun _ a => a) = l := by
  induction l with
  | nil => rfl
  | cons a rest ih => simp [List.mapIdx_cons, ih]

/-- A run in which validation passes, the bio step succeeds (or is manual),
the outline call fulfills and every content call fulfills produces exactly
the assembled book, for every settlement schedule of the content calls. -/
theorem handleGenerateBook_ok (s : AppState) (env : RunEnv) (outline : BookOutline)
    (contents : Nat → String) (bio : String)
    (hvalid : (jsTrim s.title == "" || jsTrim s.authorName == "") = false)
    (hbio : (s.authorBioOption = AuthorBioOption.manual ∧ bio = s.authorBio)
      ∨ (s.authorBioOption = AuthorBioOption.auto ∧ env.bioResult = Except.ok bio))
    (houtline : env.outlineResult = Except.ok outline)
    (hapi : env.contentApi = fun i => some (contents i))
    (horder : env.order.Perm (List.range (outline.chapterTitles.length + 2))) :
    (handleGenerateBook s env).1.generatedBook
      = some (assembleBook s.title s.subtitle s.authorName s.dedication s.acknowledgements
          bio env.year outline (contentChapters outline contents)) := by
  have hall : promiseAll (contentTasks outline env.contentApi) env.order
      = some (Except.ok (contentChapters outline contents)) := by
    rw [hapi, contentTasks_all_ok]
    exact promiseAll_ok (contentChapters outline contents) env.order
      (by rwa [length_contentChapters])
  rcases hbio with ⟨hmanual, hb⟩ | ⟨hauto, hb⟩
  · subst hb
    simp only [handleGenerateBook, hvalid, Bool.false_eq_true, if_false, hmanual,
      generateFromOutline, houtline, hall]
  · simp only [handleGenerateBook, hvalid, Bool.false_eq_true, if_false, hauto, hb,
      generateFromOutline, houtline, hall]

/-- C1: in every assembly run the body chapter at index i carries the i-th
outline chapter title, for every settlement order of the content calls:
mapping the title projection over the assembled chapters list yields
exactly the outline chapter-title list. -/
theorem assembled_chapter_titles_match_outline (s : AppState) (env : RunEnv)
    (outline : BookOutline) (contents : Nat → String)
    (hvalid : (jsTrim s.title == "" || jsTrim s.authorName == "") = false)
    (hbio : s.authorBioOption = AuthorBioOption.manual ∨ ∃ b, env.bioResult = Except.ok b)
    (houtline : env.outlineResult = Except.ok outline)
    (hapi : env.contentApi = fun i => some (contents i))
    (horder : env.order.Perm (List.range (outline.chapterTitles.length + 2))) :
    ((handleGenerateBook s env).1.generatedBook.map fun book =>
        book.chapters.map Chapter.title)
      = some outline.chapterTitles := by
  have hbio2 : (s.authorBioOption = AuthorBioOption.manual ∧ s.authorBio = s.authorBio)
      ∨ (s.authorBioOption = AuthorBioOption.auto ∧ ∃ b, env.bioResult = Except.ok b) := by
    rcases hbio with h | ⟨b, hb⟩
    · exact Or.inl ⟨h, rfl⟩
    · cases hopt : s.authorBioOption with
      | manual => exact Or.inl ⟨rfl, rfl⟩
      | auto => exact Or.inr ⟨rfl, b, hb⟩
  have hchapters : ∀ bio,
      (assembleBook s.title s.subtitle s.authorName s.dedication s.acknowledgements
        bio env.year outline (contentChapters outline contents)).chapters.map Chapter.title
      = outline.chapterTitles := by
    intro bio
    simp only [assembleBook, contentChapters, List.drop_succ_cons, List.drop_zero,
      List.dropLast_concat, map_mapIdx]
    exact mapIdx_id outline.chapterTitles
  rcases hbio2 with ⟨hmanual, _⟩ | ⟨hauto, b, hb⟩
  · rw [handleGenerateBook_ok s env outline contents s.authorBio hvalid
      (Or.inl ⟨hmanual, rfl⟩) houtline hapi horder]
    simp [hchapters]
  · rw [handleGenerateBook_ok s env outline contents b hvalid
      (Or.inr ⟨hauto, hb⟩) houtline hapi horder]
    simp [hchapters]

theorem getD_last_cons_concat (c0 y d : α) (l : List α) :
    (c0 :: (l ++ [y])).getD ((c0 :: (l ++ [y])).length - 1) d = y := by
  have hlen : (c0 :: (l ++ [y])).length - 1 = l.length + 1 := by simp
  rw [hlen, List.getD_cons_succ, List.getD_eq_getElem?_getD, List.getElem?_concat_length]
  rfl

/-- C2: for an outline with N chapter titles the run expands N+2 sections,
and the assembled chapters list is the slice of the expanded sections that
drops the first and last entries, so it has length N and the introduction
and conclusion sections live only in dedicated fields. -/
theorem assembly_excludes_intro_and_conclusion (s : AppState) (env : RunEnv)
    (outline : BookOutline) (contents : Nat → String)
    (hvalid : (jsTrim s.title == "" || jsTrim s.authorName == "") = false)
    (hbio : s.authorBioOption = AuthorBioOption.manual ∨ ∃ b, env.bioResult = Except.ok b)
    (houtline : env.outlineResult = Except.ok outline)
    (hapi : env.contentApi = fun i => some (contents i))
    (horder : env.order.Perm (List.range (outline.chapterTitles.length + 2))) :
    (contentChapters outline contents).length = outline.chapterTitles.length + 2 ∧
    ∃ book, (handleGenerateBook s env).1.generatedBook = some book
      ∧ book.chapters.length = outline.chapterTitles.length
      ∧ book.introduction = Chapter.mk outline.introductionTitle (contents 0)
      ∧ book.conclusion
          = Chapter.mk outline.conclusionTitle (contents (outline.chapterTitles.length + 1))
      ∧ book.chapters = ((contentChapters outline contents).drop 1).dropLast := by
  refine ⟨length_contentChapters outline contents, ?_⟩
  have hbio2 : ∃ bio, (s.authorBioOption = AuthorBioOption.manual ∧ bio = s.authorBio)
      ∨ (s.authorBioOption = AuthorBioOption.auto ∧ env.bioResult = Except.ok bio) := by
    rcases hbio with h | ⟨b, hb⟩
    · exact ⟨s.authorBio, Or.inl ⟨h, rfl⟩⟩
    · cases hopt : s.authorBioOption with
      | manual => exact ⟨s.authorBio, Or.inl ⟨rfl, rfl⟩⟩
      | auto => exact ⟨b, Or.inr ⟨rfl, hb⟩⟩
  rcases hbio2 with ⟨bio, hbio3⟩
  refine ⟨assembleBook s.title s.subtitle s.authorName s.dedication s.acknowledgements
      bio env.year outline (contentChapters outline contents),
    handleGenerateBook_ok s env outline contents bio hvalid hbio3 houtline hapi horder,
    ?_, ?_, ?_, rfl⟩
  · simp [assembleBook, contentChapters, List.dropLast_concat]
  · simp [assembleBook, contentChapters]
  · show (contentChapters outline contents).getD
        ((contentChapters outline contents).length - 1) (Chapter.mk "" "") = _
    unfold contentChapters
    exact getD_last_cons_concat _ _ _ _

/-- Error path of the generation handler: when the joined content step
rejects, the run surfaces the wrapped rejection reason and assigns no
book. -/
theorem handleGenerateBook_content_error (s : AppState) (env : RunEnv)
    (outline : BookOutline) (e : String)
    (hvalid : (jsTrim s.title == "" || jsTrim s.authorName == "") = false)
    (hbio : s.authorBioOption = AuthorBioOption.manual
      ∨ (s.authorBioOption = AuthorBioOption.auto ∧ ∃ b, env.bioResult = Except.ok b))
    (houtline : env.outlineResult = Except.ok outline)
    (hPA : promiseAll (contentTasks outline env.contentApi) env.order
      = some (Except.error e)) :
    (handleGenerateBook s env).1.generatedBook = none ∧
    (handleGenerateBook s env).1.error = some ("An error occurred: " ++ e) := by
  rcases hbio with hmanual | ⟨hauto, b, hb⟩
  · constructor <;>
      simp [handleGenerateBook, hvalid, hmanual, generateFromOutline, houtline, hPA]
  · constructor <;>
      simp [handleGenerateBook, hvalid, hauto, hb, generateFromOutline, houtline, hPA]

/-- C3: if any of the N+2 content-expansion calls rejects, the finished run
holds no book and surfaces one error that names a failing section through
the content-generation failure message. -/
theorem content_failure_produces_no_book (s : AppState) (env : RunEnv)
    (outline : BookOutline) (k : Nat)
    (hvalid : (jsTrim s.title == "" || jsTrim s.authorName == "") = false)
    (hbio : s.authorBioOption = AuthorBioOption.manual ∨ ∃ b, env.bioResult = Except.ok b)
    (houtline : env.outlineResult = Except.ok outline)
    (hk : k < outline.chapterTitles.length + 2)
    (hfail : env.contentApi k = none)
    (horder : env.order.Perm (List.range (outline.chapterTitles.length + 2))) :
    (handleGenerateBook s env).1.generatedBook = none ∧
    ∃ j, j < outline.chapterTitles.length + 2 ∧ env.contentApi j = none ∧
      (handleGenerateBook s env).1.error
        = some ("An error occurred: "
            ++ chapterFailureMessage ((sectionTitles outline).getD j "")) := by
  have hktitle : ∃ tk, (sectionTitles outline)[k]? = some tk := by
    have : k < (sectionTitles outline).length := by rwa [length_sectionTitles]
    exact ⟨_, List.getElem?_eq_getElem this⟩
  rcases hktitle with ⟨tk, htk⟩
  have htask : (contentTasks outline env.contentApi)[k]?
      = some (Except.error (chapterFailureMessage tk)) := by
    rw [contentTasks_getElem?, htk, hfail]
    rfl
  have hkmem : k ∈ env.order := horder.mem_iff.mpr (List.mem_range.mpr hk)
  rcases promiseAll_error (contentTasks outline env.contentApi) env.order k
      (chapterFailureMessage tk) hkmem htask with ⟨e, hPA, j, _, hje⟩
  have hbio2 : s.authorBioOption = AuthorBioOption.manual
      ∨ (s.authorBioOption = AuthorBioOption.auto ∧ ∃ b, env.bioResult = Except.ok b) := by
    rcases hbio with h | ⟨b, hb⟩
    · exact Or.inl h
    · cases hopt : s.authorBioOption with
      | manual => exact Or.inl rfl
      | auto => exact Or.inr ⟨rfl, b, hb⟩
  rcases handleGenerateBook_content_error s env outline e hvalid hbio2 houtline hPA
    with ⟨hbook, herr⟩
  rw [contentTasks_getElem?] at hje
  rcases htj : (sectionTitles outline)[j]? with _ | tj
  · rw [htj] at hje; cases hje
  rw [htj] at hje
  have hjlt : j < outline.chapterTitles.length + 2 := by
    rw [← length_sectionTitles outline]
    by_contra hc
    rw [List.getElem?_eq_none (Nat.le_of_not_lt hc)] at htj
    cases htj
  rcases happi : env.contentApi j with _ | text
  · have hmsg : e = chapterFailureMessage tj := by
      rw [happi] at hje
      simpa [generateChapterContent, Except.map] using hje.symm
    refine ⟨hbook, j, hjlt, happi, ?_⟩
    rw [herr, hmsg, List.getD_eq_getElem?_getD, htj]
    rfl
  · rw [happi] at hje
    simp [generateChapterContent, Except.map] at hje

/-- C6: an empty title or author name makes the generation handler report
the validation message and return before any external call, leaving every
other piece of state untouched. -/
theorem empty_required_field_aborts_without_calls (s : AppState) (env : RunEnv)
    (h : s.title = "" ∨ s.authorName = "") :
    handleGenerateBook s env = ({ s with error := some env.tFormError }, []) := by
  have h0 : (jsTrim "" == "") = true := by decide
  have hcond : (jsTrim s.title == "" || jsTrim s.authorName == "") = true := by
    rcases h with h | h
    · rw [h, h0, Bool.true_or]
    · rw [h, h0, Bool.or_true]
  simp [handleGenerateBook, hcond]

/-- C10: a whitespace-only title or author name is treated as missing by
the generation handler, which trims before testing and issues no external
call, even though the submit-button predicate tests only plain emptiness
and so leaves the button enabled. -/
theorem whitespace_only_input_enabled_but_rejected (s : AppState) (env : RunEnv)
    (htrim : jsTrim s.title = "" ∨ jsTrim s.authorName = "")
    (htitle : s.title ≠ "") (hauthor : s.authorName ≠ "")
    (hload : s.isLoading = false) (hsug : s.isSuggesting = false) :
    generateButtonDisabled s = false ∧
    handleGenerateBook s env = ({ s with error := some env.tFormError }, []) := by
  constructor
  · simp [generateButtonDisabled, hload, hsug, htitle, hauthor]
  · have hcond : (jsTrim s.title == "" || jsTrim s.authorName == "") = true := by
      rcases htrim with h | h <;> simp [h]
    simp [handleGenerateBook, hcond]

/-- C7: a rejected cover call touches only the cover loading flag and the
error message; the generated book, the displayed cover image and the
feedback text all keep their previous values. -/
theorem cover_failure_preserves_book (s : AppState) (book : Book) (msg : String)
    (hbook : s.generatedBook = some book) :
    handleGenerateCover s (Except.error msg)
        = { s with
              isCoverLoading := false
              error := some ("Failed to generate cover: " ++ msg) } ∧
    (handleGenerateCover s (Except.error msg)).generatedBook = some book ∧
    (handleGenerateCover s (Except.error msg)).coverImage = s.coverImage ∧
    (handleGenerateCover s (Except.error msg)).coverFeedback = s.coverFeedback := by
  refine ⟨?_, ?_, ?_, ?_⟩ <;> simp [handleGenerateCover, hbook]

/-- C8: the title-suggestion handler writes only the suggestion list, the
error message and the suggesting flag, never the working title; the title
changes only through the explicit selection click handler. -/
theorem suggest_titles_never_mutates_title (s : AppState)
    (result : Except String (List String)) :
    (∃ sug err flag, handleSuggestTitles s result
        = { s with suggestedTitles := sug, error := err, isSuggesting := flag }) ∧
    (handleSuggestTitles s result).title = s.title ∧
    (∀ suggestion, (selectSuggestedTitle s suggestion).title = suggestion) := by
  refine ⟨?_, ?_, fun _ => rfl⟩
  · unfold handleSuggestTitles
    by_cases h : (jsTrim s.title == "") = true
    · rw [if_pos h]
      exact ⟨s.suggestedTitles, some "Please enter a title to get suggestions.",
        s.isSuggesting, rfl⟩
    · rw [if_neg h]
      cases result with
      | ok titles => exact ⟨titles, none, false, rfl⟩
      | error msg => exact ⟨[], some ("Could not generate suggestions: " ++ msg), false, rfl⟩
  · unfold handleSuggestTitles
    by_cases h : (jsTrim s.title == "") = true
    · rw [if_pos h]
    · rw [if_neg h]
      cases result <;> rfl

/-- C9: a fulfilled cover call clears the cover-feedback box, while a
rejected one leaves the feedback text as the user typed it. -/
theorem cover_feedback_cleared_only_on_success (s : AppState) (book : Book)
    (imageBase64 msg : String) (hbook : s.generatedBook = some book) :
    (handleGenerateCover s (Except.ok imageBase64)).coverFeedback = "" ∧
    (handleGenerateCover s (Except.error msg)).coverFeedback = s.coverFeedback := by
  constructor <;> simp [handleGenerateCover, hbook]

/-! ### Export properties -/

theorem mem_if_nil {c : Prop} [Decidable c] {a : α} {l : List α} :
    a ∈ (if c then l else []) ↔ c ∧ a ∈ l := by
  by_cases h : c <;> simp [h]

theorem body_mem_splitParas (p text : String) :
    DocNode.body p ∈ splitParas text ↔ p ∈ jsSplitNewline text ∧ jsTrim p ≠ "" := by
  simp [splitParas, List.mem_filter]

theorem getD_of_not_truthy (v : Option String) (h : truthy v = false) : v.getD "" = "" := by
  cases v with
  | none => rfl
  | some s =>
    simp only [truthy, Bool.not_eq_false'] at h
    simpa using h

/-- C4: the export emits each optional section exactly when its source text
is truthy (present and non-empty).  The document of the book with the three
optional fields removed splits as pre, mid and post, and the document of
the full book is the same list with the dedication block, the
acknowledgements section and the author-bio section inserted at their fixed
positions, each guarded by the truthiness of its field; a falsy field
inserts nothing at all. -/
theorem docx_optional_sections_iff_nonempty (book : Book) :
    ∃ pre mid post,
      docxChildren { book with dedication := none, acknowledgements := none, authorBio := none }
        = pre ++ mid ++ post ∧
      docxChildren book
        = pre
          ++ (if truthy book.dedication then
                [DocNode.centered (book.dedication.getD ""), DocNode.pageBreak] else [])
          ++ mid
          ++ (if truthy book.acknowledgements then
                [DocNode.pageBreak, DocNode.heading1 "Acknowledgements"]
                ++ splitParas (book.acknowledgements.getD "") else [])
          ++ (if truthy book.authorBio then
                [DocNode.pageBreak, DocNode.heading1 "About the Author"]
                ++ splitParas (book.authorBio.getD "") else [])
          ++ post := by
  refine ⟨[DocNode.styled "titleStyle" book.title]
      ++ (if truthy book.subtitle then [DocNode.styled "subtitle" (book.subtitle.getD "")] else [])
      ++ [DocNode.styled "author" book.authorName, DocNode.pageBreak]
      ++ [DocNode.centered book.copyright, DocNode.pageBreak],
    [DocNode.heading1 "Synopsis"] ++ splitParas book.synopsis ++ [DocNode.pageBreak]
      ++ [DocNode.heading1 book.introduction.title] ++ splitParas book.introduction.content
      ++ (book.chapters.flatMap fun chapter =>
            [DocNode.pageBreak, DocNode.heading1 chapter.title] ++ splitParas chapter.content)
      ++ [DocNode.pageBreak, DocNode.heading1 book.conclusion.title]
      ++ splitParas book.conclusion.content,
    [DocNode.pageBreak, DocNode.centered "Thank you for reading."], ?_, ?_⟩
  · simp [docxChildren, truthy]
  · simp [docxChildren]

/-- C5: every body paragraph of the exported document is a non-blank line,
and every non-blank line of every section text (synopsis, introduction,
each chapter, conclusion, acknowledgements, author bio) yields a body
paragraph of the document: prose is split on newline boundaries and blank
lines are dropped. -/
theorem export_splits_prose_and_drops_blank_lines (book : Book) :
    (∀ p, DocNode.body p ∈ docxChildren book → jsTrim p ≠ "") ∧
    (∀ line ∈ jsSplitNewline book.synopsis, jsTrim line ≠ "" →
      DocNode.body line ∈ docxChildren book) ∧
    (∀ line ∈ jsSplitNewline book.introduction.content, jsTrim line ≠ "" →
      DocNode.body line ∈ docxChildren book) ∧
    (∀ chapter ∈ book.chapters, ∀ line ∈ jsSplitNewline chapter.content, jsTrim line ≠ "" →
      DocNode.body line ∈ docxChildren book) ∧
    (∀ line ∈ jsSplitNewline book.conclusion.content, jsTrim line ≠ "" →
      DocNode.body line ∈ docxChildren book) ∧
    (∀ line ∈ jsSplitNewline (book.acknowledgements.getD ""), jsTrim line ≠ "" →
      DocNode.body line ∈ docxChildren book) ∧
    (∀ line ∈ jsSplitNewline (book.authorBio.getD ""), jsTrim line ≠ "" →
      DocNode.body line ∈ docxChildren book) := by
  have hblank : ∀ line ∈ jsSplitNewline "", jsTrim line = "" := by decide
  refine ⟨?_, ?_, ?_, ?_, ?_, ?_, ?_⟩
  · intro p hp
    simp [docxChildren, mem_if_nil] at hp
    rcases hp with hp | hp | ⟨a, ha, hp⟩ | hp | ⟨_, hp⟩ | ⟨_, hp⟩ <;>
      exact ((body_mem_splitParas _ _).mp hp).2
  · intro line hline htrim
    simp [docxChildren, mem_if_nil]
    exact Or.inl ((body_mem_splitParas _ _).mpr ⟨hline, htrim⟩)
  · intro line hline htrim
    simp [docxChildren, mem_if_nil]
    exact Or.inr (Or.inl ((body_mem_splitParas _ _).mpr ⟨hline, htrim⟩))
  · intro chapter hch line hline htrim
    simp [docxChildren, mem_if_nil]
    exact Or.inr (Or.inr (Or.inl
      ⟨chapter, hch, (body_mem_splitParas _ _).mpr ⟨hline, htrim⟩⟩))
  · intro line hline htrim
    simp [docxChildren, mem_if_nil]
    exact Or.inr (Or.inr (Or.inr (Or.inl
      ((body_mem_splitParas _ _).mpr ⟨hline, htrim⟩))))
  · intro line hline htrim
    rcases htr : truthy book.acknowledgements with _ | _
    · rw [getD_of_not_truthy _ htr] at hline
      exact absurd (hblank line hline) htrim
    · simp [docxChildren, mem_if_nil]
      exact Or.inr (Or.inr (Or.inr (Or.inr (Or.inl
        ⟨htr, (body_mem_splitParas _ _).mpr ⟨hline, htrim⟩⟩))))
  · intro line hline htrim
    rcases htr : truthy book.authorBio with _ | _
    · rw [getD_of_not_truthy _ htr] at hline
      exact absurd (hblank line hline) htrim
    · simp [docxChildren, mem_if_nil]
      exact Or.inr (Or.inr (Or.inr (Or.inr (Or.inr
        ⟨htr, (body_mem_splitParas _ _).mpr ⟨hline, htrim⟩⟩))))

/-! ### Witnesses -/

theorem assembled_chapter_titles_match_outline_witness :
    (jsTrim exampleState.title == "" || jsTrim exampleState.authorName == "") = false
    ∧ exampleEnv.order.Perm (List.range (exampleOutline.chapterTitles.length + 2))
    ∧ ((handleGenerateBook exampleState exampleEnv).1.generatedBook.map fun book =>
        book.chapters.map Chapter.title) = some exampleOutline.chapterTitles :=
  ⟨by decide, by decide,
    assembled_chapter_titles_match_outline exampleState exampleEnv exampleOutline
      exampleContents (by decide) (Or.inl rfl) rfl rfl (by decide)⟩

theorem assembly_excludes_intro_and_conclusion_witness :
    (jsTrim exampleState.title == "" || jsTrim exampleState.authorName == "") = false
    ∧ exampleEnv.order.Perm (List.range (exampleOutline.chapterTitles.length + 2))
    ∧ ((contentChapters exampleOutline exampleContents).length
          = exampleOutline.chapterTitles.length + 2
      ∧ ∃ book, (handleGenerateBook exampleState exampleEnv).1.generatedBook = some book
          ∧ book.chapters.length = exampleOutline.chapterTitles.length
          ∧ book.introduction
              = Chapter.mk exampleOutline.introductionTitle (exampleContents 0)
          ∧ book.conclusion
              = Chapter.mk exampleOutline.conclusionTitle
                  (exampleContents (exampleOutline.chapterTitles.length + 1))
          ∧ book.chapters = ((contentChapters exampleOutline exampleContents).drop 1).dropLast) :=
  ⟨by decide, by decide,
    assembly_excludes_intro_and_conclusion exampleState exampleEnv exampleOutline
      exampleContents (by decide) (Or.inl rfl) rfl rfl (by decide)⟩

theorem content_failure_produces_no_book_witness :
    (jsTrim exampleState.title == "" || jsTrim exampleState.authorName == "") = false
    ∧ 2 < exampleOutline.chapterTitles.length + 2
    ∧ exampleEnvFail.contentApi 2 = none
    ∧ exampleEnvFail.order.Perm (List.range (exampleOutline.chapterTitles.length + 2))
    ∧ ((handleGenerateBook exampleState exampleEnvFail).1.generatedBook = none
      ∧ ∃ j, j < exampleOutline.chapterTitles.length + 2
          ∧ exampleEnvFail.contentApi j = none
          ∧ (handleGenerateBook exampleState exampleEnvFail).1.error
              = some ("An error occurred: "
                  ++ chapterFailureMessage ((sectionTitles exampleOutline).getD j ""))) :=
  ⟨by decide, by decide, by decide, by decide,
    content_failure_produces_no_book exampleState exampleEnvFail exampleOutline 2
      (by decide) (Or.inl rfl) rfl (by decide) (by decide) (by decide)⟩

theorem export_splits_prose_witness :
    DocNode.body "First line." ∈ docxChildren exampleBook
    ∧ (∀ p, DocNode.body p ∈ docxChildren exampleBook → jsTrim p ≠ "") :=
  ⟨(export_splits_prose_and_drops_blank_lines exampleBook).2.1 "First line."
      (by decide) (by decide),
    (export_splits_prose_and_drops_blank_lines exampleBook).1⟩

theorem empty_required_field_aborts_witness :
    (exampleStateNoTitle.title = "" ∨ exampleStateNoTitle.authorName = "")
    ∧ handleGenerateBook exampleStateNoTitle exampleEnv
        = ({ exampleStateNoTitle with error := some exampleEnv.tFormError }, []) :=
  ⟨Or.inl rfl,
    empty_required_field_aborts_without_calls exampleStateNoTitle exampleEnv (Or.inl rfl)⟩

theorem cover_failure_preserves_book_witness :
    exampleStateWithBook.generatedBook = some exampleBook
    ∧ (handleGenerateCover exampleStateWithBook (Except.error "Failed to generate cover image.")
          = { exampleStateWithBook with
                isCoverLoading := false
                error := some ("Failed to generate cover: "
                  ++ "Failed to generate cover image.") }
      ∧ (handleGenerateCover exampleStateWithBook
            (Except.error "Failed to generate cover image.")).generatedBook = some exampleBook
      ∧ (handleGenerateCover exampleStateWithBook
            (Except.error "Failed to generate cover image.")).coverImage
          = exampleStateWithBook.coverImage
      ∧ (handleGenerateCover exampleStateWithBook
            (Except.error "Failed to generate cover image.")).coverFeedback
          = exampleStateWithBook.coverFeedback) :=
  ⟨rfl,
    cover_failure_preserves_book exampleStateWithBook exampleBook
      "Failed to generate cover image." rfl⟩

theorem cover_feedback_cleared_witness :
    exampleStateWithBook.generatedBook = some exampleBook
    ∧ ((handleGenerateCover exampleStateWithBook (Except.ok "QkJCQg==")).coverFeedback = ""
      ∧ (handleGenerateCover exampleStateWithBook
            (Except.error "Failed to generate cover image.")).coverFeedback
          = exampleStateWithBook.coverFeedback) :=
  ⟨rfl,
    cover_feedback_cleared_only_on_success exampleStateWithBook exampleBook
      "QkJCQg==" "Failed to generate cover image." rfl⟩

theorem whitespace_only_input_witness :
    (jsTrim exampleStateSpaces.title = "" ∨ jsTrim exampleStateSpaces.authorName = "")
    ∧ exampleStateSpaces.title ≠ ""
    ∧ exampleStateSpaces.authorName ≠ ""
    ∧ exampleStateSpaces.isLoading = false
    ∧ exampleStateSpaces.isSuggesting = false
    ∧ (generateButtonDisabled exampleStateSpaces = false
      ∧ handleGenerateBook exampleStateSpaces exampleEnv
          = ({ exampleStateSpaces with error := some exampleEnv.tFormError }, [])) :=
  ⟨Or.inl (by decide), by decide, by decide, rfl, rfl,
    whitespace_only_input_enabled_but_rejected exampleStateSpaces exampleEnv
      (Or.inl (by decide)) (by decide) (by decide) rfl rfl⟩

end BookWeaver
